import Mathlib

/-!
Shallow embedding of the `stackoverflow-read-write-mcp` server
(`src/index.ts`, class `StackOverflowServer`) together with proofs about
the rate limiter, the throttled invoker, the read aggregator, the write
policy gate, the tool dispatcher and the response formatter.

Modelling conventions:
* JavaScript timestamps are `Nat` milliseconds.
* JavaScript truthiness is made explicit: a string is truthy iff nonempty,
  a number is truthy iff nonzero, an absent (`undefined`) value is falsy,
  arrays and objects are always truthy.
* Network interaction is modelled by a `World` oracle giving the payload
  of each successful HTTP response, and every function that performs API
  calls also returns the ordered trace of calls it issued (`List ApiCall`).
  Only the successful-response path of each fetch is modelled; the claims
  under study never depend on a non-ok HTTP response.
-/

namespace SOMcp

/-- `StackOverflowQuestion` from `src/types/index.ts`. -/
structure Question where
  question_id : Nat
  title : String
  body : String
  score : Int
  answer_count : Nat
  is_answered : Bool
  accepted_answer_id : Option Nat
  creation_date : Nat
  tags : List String
  link : String
  deriving Repr, DecidableEq

/-- `StackOverflowAnswer` from `src/types/index.ts`. -/
structure Answer where
  answer_id : Nat
  question_id : Nat
  score : Int
  is_accepted : Bool
  body : String
  creation_date : Nat
  link : String
  deriving Repr, DecidableEq

/-- `StackOverflowComment` from `src/types/index.ts`. -/
structure Comment where
  comment_id : Nat
  post_id : Nat
  score : Int
  body : String
  creation_date : Nat
  deriving Repr, DecidableEq

/-- `SearchResultComments`: the question's comments plus a map from answer id
to that answer's comments (a JavaScript object, modelled as an association
list in insertion order). -/
structure ResultComments where
  question : List Comment
  answers : List (Nat × List Comment)
  deriving Repr, DecidableEq

/-- `SearchResult` (the spec's CompositeResult): one question, its answers,
and the optional comments bundle (the `comments` key is absent when
`includeComments` was falsy). -/
structure SearchResult where
  question : Question
  answers : List Answer
  comments : Option ResultComments
  deriving Repr, DecidableEq

/-- `PostQuestionInput` from `src/types/index.ts`. -/
structure PostQuestionInput where
  title : String
  body : String
  tags : List String
  errorSignature : String
  triedApproaches : List String
  deriving Repr, DecidableEq

/-- `PostSolutionInput` from `src/types/index.ts`. -/
structure PostSolutionInput where
  questionId : Nat
  body : String
  confirmedResolved : Bool
  evidence : List String
  deriving Repr, DecidableEq

/-- `ThumbsUpInput` from `src/types/index.ts`. -/
structure ThumbsUpInput where
  postId : Nat
  confirmedFixed : Bool
  deriving Repr, DecidableEq

/-- `CommentSolutionInput` from `src/types/index.ts`. -/
structure CommentSolutionInput where
  questionId : Nat
  body : String
  deriving Repr, DecidableEq

/-- `ErrorCode` values of `McpError` used by the server. -/
inductive ErrCode where
  | invalidParams
  | invalidRequest
  | internalError
  | methodNotFound
  deriving Repr, DecidableEq

/-- `McpError`: an error code together with its message string. -/
structure McpErr where
  code : ErrCode
  message : String
  deriving Repr, DecidableEq

/-- JavaScript truthiness of an optional string (`undefined` and `""` are
falsy). The server reads `STACKOVERFLOW_API_KEY` / `STACKOVERFLOW_ACCESS_TOKEN`
from the environment and tests them with `!`. -/
def truthyStr : Option String → Bool
  | none => false
  | some s => !s.isEmpty

/-- JavaScript truthiness of an optional number (`undefined` and `0` falsy). -/
def truthyOptNat : Option Nat → Bool
  | none => false
  | some n => n != 0

/-- JavaScript truthiness of an optional (possibly negative) number. -/
def truthyOptInt : Option Int → Bool
  | none => false
  | some n => n != 0

/-- The credential fields `this.apiKey` / `this.accessToken`, loaded from the
environment in the constructor. -/
structure Creds where
  apiKey : Option String
  accessToken : Option String
  deriving Repr, DecidableEq

/-- Both write credentials present (truthy): the condition under which
`ensureWriteAccess` succeeds. -/
def credsWriteOk (c : Creds) : Bool :=
  truthyStr c.apiKey && truthyStr c.accessToken

/-- The configuration error thrown by `ensureWriteAccess`. -/
def configErr : McpErr :=
  ⟨.invalidRequest,
   "Write operations require STACKOVERFLOW_API_KEY and STACKOVERFLOW_ACCESS_TOKEN"⟩

/-- `ensureWriteAccess()`: throws when either credential is falsy. -/
def ensureWriteAccess (c : Creds) : Except McpErr Unit :=
  if !truthyStr c.apiKey || !truthyStr c.accessToken then .error configErr
  else .ok ()

/-! ## Rate limiter (`checkRateLimit`) -/

/-- `MAX_REQUESTS_PER_WINDOW`. -/
def maxRequestsPerWindow : Nat := 30

/-- `RATE_LIMIT_WINDOW_MS`. -/
def rateLimitWindowMs : Nat := 60000

/-- `checkRateLimit()`: filter out timestamps with `now - t >= 60000`,
deny when 30 or more remain, otherwise record `now` and permit.
State is the `requestTimestamps` array; returns (permitted?, new state). -/
def checkRateLimit (now : Nat) (timestamps : List Nat) : Bool × List Nat :=
  let recent := timestamps.filter (fun t => now - t < rateLimitWindowMs)
  if maxRequestsPerWindow ≤ recent.length then (false, recent)
  else (true, recent ++ [now])

/-- Run a sequence of `checkRateLimit` calls at the given instants, returning
how many were permitted and the final timestamp state. -/
def runRateLimit : List Nat → List Nat → Nat × List Nat
  | [], st => (0, st)
  | now :: rest, st =>
    let step := checkRateLimit now st
    let r := runRateLimit rest step.2
    ((if step.1 then 1 else 0) + r.1, r.2)

/-! ## Throttled invoker (`withRateLimit`) -/

/-- Outcome of one execution of the wrapped operation: success, or a failure
that is (`is429 = true`) or is not recognizable as HTTP 429. -/
inductive OpStep (α : Type) where
  | ok (v : α)
  | err (is429 : Bool) (msg : String)
  deriving Repr, DecidableEq

/-- Final outcome of `withRateLimit`: the propagated result or error, the
total number of times the operation was executed, and the number of
2-second backoff waits performed. -/
structure RLOutcome (α : Type) where
  result : Except (Bool × String) α
  attempts : Nat
  waits : Nat
  deriving Repr

/-- `withRateLimit(fn, retries)`. `op k` is the behaviour of the operation
on its `k`-th execution (0-based); `permits` feeds one local rate-limiter
decision per entry into the function (the recursion on a local denial is
unbounded in the source, so an exhausted `permits` list yields `none`,
marking potential divergence). `k` counts executions performed so far.
A local denial waits and retries with the same budget; a 429 failure with
budget left waits and retries with budget minus one; any other failure, or
a 429 with no budget, propagates. -/
def withRateLimit {α : Type} (op : Nat → OpStep α) :
    List Bool → Nat → Nat → Option (RLOutcome α)
  | [], _, _ => none
  | p :: ps, k, retries =>
    if p then
      match op k with
      | .ok v => some ⟨.ok v, k + 1, 0⟩
      | .err is429 msg =>
        if 0 < retries && is429 then
          (withRateLimit op ps (k + 1) (retries - 1)).map
            (fun r => { r with waits := r.waits + 1 })
        else some ⟨.error (is429, msg), k + 1, 0⟩
    else
      (withRateLimit op ps k retries).map (fun r => { r with waits := r.waits + 1 })

/-! ## QA API client and aggregator -/

/-- Oracle for the external API: the `items` payload of each successful
response. `none` models a response body with no `items` field (the code
falls back with `data.items || []` resp. `(data.items && data.items[0])`). -/
structure World where
  searchItems : List Question
  answersItems : Nat → Option (List Answer)
  commentsItems : Nat → Option (List Comment)
  questionItems : Nat → Option (List Question)

/-- One outbound HTTP request to the Stack Exchange API. -/
inductive ApiCall where
  | search (q : String) (tagged : Option String) (pagesize : Option Nat)
  | answersFetch (questionId : Nat)
  | commentsFetch (postId : Nat)
  | questionFetch (questionId : Nat)
  | questionAdd (title : String) (body : String) (tags : String)
  | answerAdd (questionId : Nat) (body : String)
  | upvote (postId : Nat)
  | commentAdd (postId : Nat) (body : String)
  deriving Repr, DecidableEq

/-- A mutating (POST) request: the four write endpoints. -/
def ApiCall.isWrite : ApiCall → Bool
  | .questionAdd .. => true
  | .answerAdd .. => true
  | .upvote _ => true
  | .commentAdd .. => true
  | _ => false

/-- `fetchAnswers`: result of `data.items || []` on the ok path. -/
def fetchAnswersResult (w : World) (questionId : Nat) : List Answer :=
  (w.answersItems questionId).getD []

/-- `fetchComments`: result of `data.items || []` on the ok path. -/
def fetchCommentsResult (w : World) (postId : Nat) : List Comment :=
  (w.commentsItems postId).getD []

/-- `fetchQuestion`: result of `(data.items && data.items[0]) || undefined`. -/
def fetchQuestionResult (w : World) (questionId : Nat) : Option Question :=
  ((w.questionItems questionId).getD []).head?

/-- The option bag taken by `searchStackOverflow`. -/
structure SearchOptions where
  minScore : Option Int := none
  limit : Option Nat := none
  includeComments : Bool := false
  deriving Repr

/-- Assignment `comments.answers[key] = value` on a JavaScript object:
overwrite an existing key in place, otherwise append. -/
def mapInsert (m : List (Nat × List Comment)) (key : Nat) (value : List Comment) :
    List (Nat × List Comment) :=
  if m.any (fun p => p.1 == key) then
    m.map (fun p => if p.1 == key then (key, value) else p)
  else m ++ [(key, value)]

/-- The per-question body of `searchStackOverflow`'s loop (after the
`minScore` guard): fetch the answers; when `includeComments` is truthy also
fetch the question's comments and then, in answer order, each answer's
comments, building the answers map. Returns the composed `SearchResult`
and the trace of calls issued for this question. -/
def processQuestion (w : World) (includeComments : Bool) (q : Question) :
    SearchResult × List ApiCall :=
  let answers := fetchAnswersResult w q.question_id
  if includeComments then
    let qComments := fetchCommentsResult w q.question_id
    let answersMap := answers.foldl
      (fun m a => mapInsert m a.answer_id (fetchCommentsResult w a.answer_id)) []
    (⟨q, answers, some ⟨qComments, answersMap⟩⟩,
     .answersFetch q.question_id :: .commentsFetch q.question_id ::
       answers.map (fun a => ApiCall.commentsFetch a.answer_id))
  else
    (⟨q, answers, none⟩, [.answersFetch q.question_id])

/-- The `for (const question of data.items)` loop of `searchStackOverflow`:
skip a question when `options.minScore` is truthy and the score is below it
(issuing no calls for it), otherwise process it and keep search order. -/
def aggregate (w : World) (opts : SearchOptions) :
    List Question → List SearchResult × List ApiCall
  | [] => ([], [])
  | q :: qs =>
    if truthyOptInt opts.minScore && decide (q.score < opts.minScore.getD 0) then
      aggregate w opts qs
    else
      let r := processQuestion w opts.includeComments q
      let rest := aggregate w opts qs
      (r.1 :: rest.1, r.2 ++ rest.2)

/-- `searchStackOverflow(query, tags, options)`: one `/search/advanced` call
(with `tagged` only when `tags` is present, `pagesize` only when
`options.limit` is truthy), then the aggregation loop over the returned
items. -/
def searchStackOverflow (w : World) (query : String) (tags : Option (List String))
    (opts : SearchOptions) : List SearchResult × List ApiCall :=
  let r := aggregate w opts w.searchItems
  (r.1,
   .search query (tags.map (fun ts => String.intercalate ";" ts))
     (if truthyOptNat opts.limit then opts.limit else none) :: r.2)

/-! ## Write policy gate (the four write handlers) -/

/-- `handlePostQuestion`: duplicate search on the error signature and tags
(`minScore: 0` — falsy, so no score filter — `limit: 3`, no comments);
reject if any result; then `ensureWriteAccess`; then POST
`/questions/add`. -/
def handlePostQuestion (c : Creds) (w : World) (i : PostQuestionInput) :
    Except McpErr Unit × List ApiCall :=
  let similar := searchStackOverflow w i.errorSignature (some i.tags)
    ⟨some 0, some 3, false⟩
  if 0 < similar.1.length then
    (.error ⟨.invalidRequest,
      "Refusing to post: similar questions already exist for the provided errorSignature"⟩,
     similar.2)
  else
    match ensureWriteAccess c with
    | .error e => (.error e, similar.2)
    | .ok _ =>
      (.ok (), similar.2 ++ [.questionAdd i.title i.body (String.intercalate ";" i.tags)])

/-- `handlePostSolution`: require `confirmedResolved`, non-empty evidence,
an existing target question with no accepted answer and `answer_count = 0`;
then `ensureWriteAccess`; then POST `/questions/{id}/answers/add`. -/
def handlePostSolution (c : Creds) (w : World) (i : PostSolutionInput) :
    Except McpErr Unit × List ApiCall :=
  if !i.confirmedResolved then
    (.error ⟨.invalidRequest, "Refusing to post: confirmedResolved must be true"⟩, [])
  else if i.evidence.isEmpty then
    (.error ⟨.invalidParams, "Refusing to post: evidence is required"⟩, [])
  else
    match fetchQuestionResult w i.questionId with
    | none => (.error ⟨.invalidRequest, "Question not found"⟩, [.questionFetch i.questionId])
    | some q =>
      if truthyOptNat q.accepted_answer_id || decide (0 < q.answer_count) then
        (.error ⟨.invalidRequest,
          "Refusing to post: the question already has answers (or an accepted one)"⟩,
         [.questionFetch i.questionId])
      else
        match ensureWriteAccess c with
        | .error e => (.error e, [.questionFetch i.questionId])
        | .ok _ => (.ok (), [.questionFetch i.questionId, .answerAdd i.questionId i.body])

/-- `handleThumbsUp`: require `confirmedFixed`, then `ensureWriteAccess`,
then POST `/posts/{id}/upvote`. -/
def handleThumbsUp (c : Creds) (i : ThumbsUpInput) :
    Except McpErr Unit × List ApiCall :=
  if !i.confirmedFixed then
    (.error ⟨.invalidRequest, "Refusing to upvote: confirmedFixed must be true"⟩, [])
  else
    match ensureWriteAccess c with
    | .error e => (.error e, [])
    | .ok _ => (.ok (), [.upvote i.postId])

/-- `handleCommentSolution`: fetch the target question, reject when missing
or when it has a (truthy) accepted answer; then `ensureWriteAccess`; then
POST `/posts/{id}/comments/add`. -/
def handleCommentSolution (c : Creds) (w : World) (i : CommentSolutionInput) :
    Except McpErr Unit × List ApiCall :=
  match fetchQuestionResult w i.questionId with
  | none => (.error ⟨.invalidRequest, "Question not found"⟩, [.questionFetch i.questionId])
  | some q =>
    if truthyOptNat q.accepted_answer_id then
      (.error ⟨.invalidRequest,
        "Refusing to comment: question already has an accepted answer"⟩,
       [.questionFetch i.questionId])
    else
      match ensureWriteAccess c with
      | .error e => (.error e, [.questionFetch i.questionId])
      | .ok _ => (.ok (), [.questionFetch i.questionId, .commentAdd i.questionId i.body])

/-! ## Tool dispatcher (write tools) -/

/-- An incoming tool call for one of the four write tools. -/
inductive ToolCall where
  | postQuestion (i : PostQuestionInput)
  | postSolution (i : PostSolutionInput)
  | thumbsUp (i : ThumbsUpInput)
  | commentSolution (i : CommentSolutionInput)
  deriving Repr, DecidableEq

/-- The `CallToolRequestSchema` handler's `switch` for the write tools.
Required-argument validation is by JavaScript truthiness: a string argument
fails when empty, a numeric id fails when `0`; array arguments are always
truthy. `post_question` additionally requires
`triedApproaches.length >= 3`. -/
def dispatch (c : Creds) (w : World) : ToolCall → Except McpErr Unit × List ApiCall
  | .postQuestion i =>
    if i.title.isEmpty || i.body.isEmpty || i.errorSignature.isEmpty then
      (.error ⟨.invalidParams,
        "title, body, tags, errorSignature, triedApproaches are required"⟩, [])
    else if i.triedApproaches.length < 3 then
      (.error ⟨.invalidParams, "At least 3 triedApproaches are required"⟩, [])
    else handlePostQuestion c w i
  | .postSolution i =>
    if i.questionId == 0 || i.body.isEmpty then
      (.error ⟨.invalidParams, "questionId and body are required"⟩, [])
    else handlePostSolution c w i
  | .thumbsUp i =>
    if i.postId == 0 then
      (.error ⟨.invalidParams, "postId is required"⟩, [])
    else handleThumbsUp c i
  | .commentSolution i =>
    if i.questionId == 0 || i.body.isEmpty then
      (.error ⟨.invalidParams, "questionId and body are required"⟩, [])
    else handleCommentSolution c w i

/-- Is the result an error (a thrown `McpError`)? -/
def isErrorResult : Except McpErr Unit → Bool
  | .error _ => true
  | .ok _ => false

/-! ## Response formatter

`formatResponse(results, "json")` is `JSON.stringify(results, null, 2)`.
We embed the JSON *value* that `JSON.stringify` serializes (`encodeResults`,
with `undefined` object fields omitted, exactly as `JSON.stringify` omits
them) and exhibit the parser `decodeResults` back to the data model.
`formatResponse(results, "markdown")` is embedded verbatim as
`formatResponseMarkdown`. -/

/-- A JSON value. Object fields are listed in insertion order. -/
inductive Json where
  | num (n : Int)
  | str (s : String)
  | bool (b : Bool)
  | arr (items : List Json)
  | obj (fields : List (String × Json))
  deriving Repr

/-- Decimal rendering of a `Nat`, as JavaScript renders an object key. -/
def natKey (n : Nat) : String :=
  if n = 0 then "0"
  else ⟨((Nat.digits 10 n).map (fun d => Char.ofNat (48 + d))).reverse⟩

/-- A decimal digit character back to its value. -/
def charDigit (c : Char) : Option Nat :=
  if 48 ≤ c.toNat ∧ c.toNat ≤ 57 then some (c.toNat - 48) else none

/-- Parse a most-significant-first decimal digit string onto accumulator `acc`. -/
def keyNatAux : Nat → List Char → Option Nat
  | acc, [] => some acc
  | acc, ch :: rest =>
    match charDigit ch with
    | none => none
    | some d => keyNatAux (10 * acc + d) rest

/-- Parse a nonempty decimal string back to a `Nat`. -/
def keyNat (s : String) : Option Nat :=
  match s.data with
  | [] => none
  | cs => keyNatAux 0 cs

/-- The JSON value of a `StackOverflowComment`. -/
def encodeComment (c : Comment) : Json :=
  .obj [("comment_id", .num (Int.ofNat c.comment_id)),
        ("post_id", .num (Int.ofNat c.post_id)),
        ("score", .num c.score), ("body", .str c.body),
        ("creation_date", .num (Int.ofNat c.creation_date))]

/-- The JSON value of a `StackOverflowAnswer`. -/
def encodeAnswer (a : Answer) : Json :=
  .obj [("answer_id", .num (Int.ofNat a.answer_id)),
        ("question_id", .num (Int.ofNat a.question_id)),
        ("score", .num a.score), ("is_accepted", .bool a.is_accepted),
        ("body", .str a.body), ("creation_date", .num (Int.ofNat a.creation_date)),
        ("link", .str a.link)]

/-- The JSON value of a `StackOverflowQuestion`; the optional
`accepted_answer_id` field is omitted when absent. -/
def encodeQuestion (q : Question) : Json :=
  .obj ([("question_id", .num (Int.ofNat q.question_id)), ("title", .str q.title),
         ("body", .str q.body), ("score", .num q.score),
         ("answer_count", .num (Int.ofNat q.answer_count)),
         ("is_answered", .bool q.is_answered)]
    ++ (match q.accepted_answer_id with
        | none => []
        | some a => [("accepted_answer_id", Json.num (Int.ofNat a))])
    ++ [("creation_date", .num (Int.ofNat q.creation_date)),
        ("tags", .arr (q.tags.map Json.str)), ("link", .str q.link)])

/-- The JSON value of a `SearchResultComments` bundle; answer ids become
decimal object keys. -/
def encodeResultComments (b : ResultComments) : Json :=
  .obj [("question", .arr (b.question.map encodeComment)),
        ("answers", .obj (b.answers.map
          (fun p => (natKey p.1, Json.arr (p.2.map encodeComment)))))]

/-- The JSON value of a `SearchResult`; the `comments` field is omitted when
absent. -/
def encodeResult (r : SearchResult) : Json :=
  .obj ([("question", encodeQuestion r.question),
         ("answers", .arr (r.answers.map encodeAnswer))]
    ++ (match r.comments with
        | none => []
        | some b => [("comments", encodeResultComments b)]))

/-- The JSON value serialized by `formatResponse(results, "json")`. -/
def encodeResults (results : List SearchResult) : Json :=
  .arr (results.map encodeResult)

/-- Parse a JSON string value. -/
def decodeStr : Json → Option String
  | .str s => some s
  | _ => none

/-- Parse every element of a JSON array, failing if any element fails. -/
def decodeList {β : Type} (f : Json → Option β) : List Json → Option (List β)
  | [] => some []
  | j :: rest =>
    match f j, decodeList f rest with
    | some b, some bs => some (b :: bs)
    | _, _ => none

/-- Parse a `StackOverflowComment`. -/
def decodeComment : Json → Option Comment
  | .obj [("comment_id", .num (.ofNat cid)), ("post_id", .num (.ofNat pid)),
          ("score", .num s), ("body", .str b),
          ("creation_date", .num (.ofNat cd))] =>
    some ⟨cid, pid, s, b, cd⟩
  | _ => none

/-- Parse a `StackOverflowAnswer`. -/
def decodeAnswer : Json → Option Answer
  | .obj [("answer_id", .num (.ofNat aid)), ("question_id", .num (.ofNat qid)),
          ("score", .num s), ("is_accepted", .bool acc), ("body", .str b),
          ("creation_date", .num (.ofNat cd)), ("link", .str l)] =>
    some ⟨aid, qid, s, acc, b, cd, l⟩
  | _ => none

/-- Parse a `StackOverflowQuestion` (with or without `accepted_answer_id`). -/
def decodeQuestion : Json → Option Question
  | .obj (("question_id", .num (.ofNat qid)) :: ("title", .str t) ::
          ("body", .str b) :: ("score", .num s) ::
          ("answer_count", .num (.ofNat ac)) :: ("is_answered", .bool ia) :: rest) =>
    match rest with
    | [("creation_date", .num (.ofNat cd)), ("tags", .arr tagsJ), ("link", .str l)] =>
      (decodeList decodeStr tagsJ).map (fun tags => ⟨qid, t, b, s, ac, ia, none, cd, tags, l⟩)
    | [("accepted_answer_id", .num (.ofNat aid)),
       ("creation_date", .num (.ofNat cd)), ("tags", .arr tagsJ), ("link", .str l)] =>
      (decodeList decodeStr tagsJ).map
        (fun tags => ⟨qid, t, b, s, ac, ia, some aid, cd, tags, l⟩)
    | _ => none
  | _ => none

/-- Parse one entry of the answers-comments map. -/
def decodeAnswersEntry : String × Json → Option (Nat × List Comment)
  | (key, .arr cs) =>
    match keyNat key with
    | none => none
    | some n => (decodeList decodeComment cs).map (fun l => (n, l))
  | _ => none

/-- Parse the entries of the answers-comments object. -/
def decodeEntries : List (String × Json) → Option (List (Nat × List Comment))
  | [] => some []
  | e :: rest =>
    match decodeAnswersEntry e, decodeEntries rest with
    | some p, some ps => some (p :: ps)
    | _, _ => none

/-- Parse a `SearchResultComments` bundle. -/
def decodeResultComments : Json → Option ResultComments
  | .obj [("question", .arr qs), ("answers", .obj entries)] =>
    match decodeList decodeComment qs with
    | none => none
    | some qcs => (decodeEntries entries).map (fun m => ⟨qcs, m⟩)
  | _ => none

/-- Parse a `SearchResult` (with or without `comments`). -/
def decodeResult : Json → Option SearchResult
  | .obj (("question", qJ) :: ("answers", .arr asJ) :: rest) =>
    match decodeQuestion qJ, decodeList decodeAnswer asJ with
    | some q, some answers =>
      match rest with
      | [] => some ⟨q, answers, none⟩
      | [("comments", cJ)] => (decodeResultComments cJ).map (fun b => ⟨q, answers, some b⟩)
      | _ => none
    | _, _ => none
  | _ => none

/-- Parse the full result sequence. -/
def decodeResults : Json → Option (List SearchResult)
  | .arr items => decodeList decodeResult items
  | _ => none

/-- The markdown block for one comment bullet. -/
def commentLine (c : Comment) : String :=
  "- " ++ c.body ++ " *(Score: " ++ toString c.score ++ ")*\n"

/-- The markdown block for one answer inside a result (heading with accepted
marker and score, body, and — when the comments map has an entry for this
answer id — the answer-comments block). -/
def answerMarkdown (comments : Option ResultComments) (a : Answer) : String :=
  "### " ++ (if a.is_accepted then "✓ " else "") ++ "Answer (Score: "
    ++ toString a.score ++ ")\n\n"
  ++ a.body ++ "\n\n"
  ++ (match comments with
      | none => ""
      | some b =>
        match b.answers.lookup a.answer_id with
        | none => ""
        | some cs =>
          "#### Answer Comments\n\n" ++ String.join (cs.map commentLine) ++ "\n")

/-- The markdown document for one `SearchResult`, as built by
`formatResponse`'s markdown branch. -/
def resultMarkdown (r : SearchResult) : String :=
  "# " ++ r.question.title ++ "\n\n"
  ++ "**Score:** " ++ toString r.question.score ++ " | **Answers:** "
    ++ toString r.question.answer_count ++ "\n\n"
  ++ "## Question\n\n" ++ r.question.body ++ "\n\n"
  ++ (match r.comments with
      | none => ""
      | some b =>
        "### Question Comments\n\n" ++ String.join (b.question.map commentLine) ++ "\n")
  ++ "## Answers\n\n"
  ++ String.join (r.answers.map (answerMarkdown r.comments))
  ++ "---\n\n[View on Stack Overflow](" ++ r.question.link ++ ")\n\n"

/-- `formatResponse(results, "markdown")`: map each result to its document
and join with a blank-line separator. -/
def formatResponseMarkdown (results : List SearchResult) : String :=
  String.intercalate "\n\n" (results.map resultMarkdown)

/-! ## Concrete fixtures used by the theorems below -/

/-- World whose responses all lack an `items` payload. -/
def worldNoItems : World :=
  ⟨[], fun _ => none, fun _ => none, fun _ => none⟩

/-- Question that already has an accepted answer. -/
def questionAnswered : Question :=
  ⟨1, "t", "b", 1, 1, true, some 2, 0, ["x"], "l"⟩

/-- World where question 1 exists and has an accepted answer. -/
def worldAnswered : World :=
  ⟨[], fun _ => some [], fun _ => some [], fun _ => some [questionAnswered]⟩

/-- Credentials with an API key but no OAuth access token. -/
def credsNoToken : Creds := ⟨some "key", none⟩

/-- World whose duplicate search returns no items. -/
def worldEmptySearch : World :=
  ⟨[], fun _ => some [], fun _ => some [], fun _ => some []⟩

/-- A valid `post_question` input with three tried approaches. -/
def pqInput : PostQuestionInput := ⟨"Title", "Body", ["tag"], "sig", ["a1", "a2", "a3"]⟩

/-- Credentials with both key and token present. -/
def credsOk : Creds := ⟨some "k", some "t"⟩

/-- A `post_question` input whose three tried approaches are all the same
string (one distinct approach). -/
def pqDupApproaches : PostQuestionInput := ⟨"Title", "Body", ["tag"], "sig", ["a", "a", "a"]⟩

/-- A plain unanswered question with a positive score. -/
def questionPlain : Question := ⟨1, "t", "b", 5, 0, false, none, 0, ["x"], "l"⟩

/-- World whose search returns exactly one question. -/
def worldOneResult : World :=
  ⟨[questionPlain], fun _ => some [], fun _ => some [], fun _ => some []⟩

/-- A question with a negative score. -/
def questionNegScore : Question := ⟨2, "neg", "b", -1, 0, false, none, 0, ["x"], "l"⟩

/-- World whose search returns one negatively-scored question. -/
def worldNegScore : World :=
  ⟨[questionNegScore], fun _ => some [], fun _ => some [], fun _ => some []⟩

/-- Two answers to question 1, with distinct ids. -/
def answerA : Answer := ⟨10, 1, 1, false, "a1", 0, "l1"⟩

/-- A second answer to question 1. -/
def answerB : Answer := ⟨11, 1, 0, false, "a2", 0, "l2"⟩

/-- World with one searched question carrying two answers. -/
def worldTwoAnswers : World :=
  ⟨[questionPlain], fun _ => some [answerA, answerB], fun _ => some [], fun _ => some []⟩

/-! ## Rate limiter lemmas -/

/-- Processing calls whose instants all lie in `[t0, t0 + window)` from a
state whose timestamps are all at least `t0`: nothing is ever pruned, so
exactly `min (number of calls) (30 - state size)` calls are permitted. -/
theorem runRateLimit_min_general (calls : List Nat) (t0 : Nat)
    (hcalls : ∀ t ∈ calls, t0 ≤ t ∧ t < t0 + rateLimitWindowMs) :
    ∀ st : List Nat, (∀ t ∈ st, t0 ≤ t) → st.length ≤ maxRequestsPerWindow →
      (runRateLimit calls st).1 =
        min calls.length (maxRequestsPerWindow - st.length) := by
  induction calls with
  | nil => intro st _ _; simp [runRateLimit]
  | cons now rest ih =>
    intro st hst hlen
    have hnow : t0 ≤ now ∧ now < t0 + rateLimitWindowMs := hcalls now (by simp)
    have hrest : ∀ t ∈ rest, t0 ≤ t ∧ t < t0 + rateLimitWindowMs :=
      fun t ht => hcalls t (List.mem_cons_of_mem _ ht)
    have hkeep : st.filter (fun t => now - t < rateLimitWindowMs) = st := by
      rw [List.filter_eq_self]
      intro t ht
      have h1 := hst t ht
      have h2 := hnow.2
      simp only [decide_eq_true_eq]
      omega
    by_cases hfull : maxRequestsPerWindow ≤ st.length
    · have hdeny : checkRateLimit now st = (false, st) := by
        simp [checkRateLimit, hkeep, hfull]
      have hun : (runRateLimit (now :: rest) st).1 = (runRateLimit rest st).1 := by
        simp [runRateLimit, hdeny]
      rw [hun, ih hrest st hst hlen]
      simp only [List.length_cons]
      simp only [maxRequestsPerWindow] at hfull hlen ⊢
      omega
    · have hgrant : checkRateLimit now st = (true, st ++ [now]) := by
        simp [checkRateLimit, hkeep, hfull]
      have hst2 : ∀ t ∈ st ++ [now], t0 ≤ t := by
        intro t ht
        rcases List.mem_append.1 ht with h | h
        · exact hst t h
        · simp at h; omega
      have hlen2 : (st ++ [now]).length ≤ maxRequestsPerWindow := by
        simp only [List.length_append, List.length_singleton]
        simp only [maxRequestsPerWindow] at hfull ⊢
        omega
      have hun : (runRateLimit (now :: rest) st).1 =
          1 + (runRateLimit rest (st ++ [now])).1 := by
        simp [runRateLimit, hgrant]
      rw [hun, ih hrest (st ++ [now]) hst2 hlen2]
      simp only [List.length_append, List.length_cons, List.length_nil,
        List.length_singleton, maxRequestsPerWindow] at hfull hlen2 ⊢
      omega

/-- Claim C2: within any rolling 60-second window at most 30
`checkRateLimit` calls are permitted. Part 1: starting from an empty
record, a call sequence whose instants all fall inside one 60-second
window gets exactly `min n 30` permits — the 31st and later in-window
calls are denied. Part 2: with 30 in-window instants recorded, the next
in-window call is denied and the state is unchanged. Part 3: once the
oldest recorded instant has aged out of the window (the other 29 still
inside), the next call is permitted again. -/
theorem claim_C2 :
    (∀ (t0 : Nat) (calls : List Nat),
      (∀ t ∈ calls, t0 ≤ t ∧ t < t0 + rateLimitWindowMs) →
      (runRateLimit calls []).1 = min calls.length maxRequestsPerWindow) ∧
    (∀ (now : Nat) (st : List Nat), st.length = maxRequestsPerWindow →
      (∀ t ∈ st, now - t < rateLimitWindowMs) →
      checkRateLimit now st = (false, st)) ∧
    (∀ (now oldest : Nat) (rest : List Nat),
      (oldest :: rest).length = maxRequestsPerWindow →
      rateLimitWindowMs ≤ now - oldest →
      (∀ t ∈ rest, now - t < rateLimitWindowMs) →
      (checkRateLimit now (oldest :: rest)).1 = true) := by
  refine ⟨?_, ?_, ?_⟩
  · intro t0 calls hcalls
    have := runRateLimit_min_general calls t0 hcalls [] (by simp) (by simp)
    simpa using this
  · intro now st hlen hwin
    have hkeep : st.filter (fun t => now - t < rateLimitWindowMs) = st := by
      rw [List.filter_eq_self]
      intro t ht
      simpa using hwin t ht
    simp [checkRateLimit, hkeep, hlen]
  · intro now oldest rest hlen hold hwin
    have hdrop : ¬ (now - oldest < rateLimitWindowMs) := by omega
    have hkeep : rest.filter (fun t => now - t < rateLimitWindowMs) = rest := by
      rw [List.filter_eq_self]
      intro t ht
      simpa using hwin t ht
    have hlen29 : rest.length + 1 = maxRequestsPerWindow := by
      simpa using hlen
    have hfc : (oldest :: rest).filter (fun t => now - t < rateLimitWindowMs) = rest := by
      rw [List.filter_cons, if_neg (by simpa using hdrop), hkeep]
    have hstep : checkRateLimit now (oldest :: rest) = (true, rest ++ [now]) := by
      simp only [checkRateLimit, hfc]
      rw [if_neg (by omega)]
    rw [hstep]

/-- Witness for claim C2 at concrete inputs: 31 calls at the same instant
permit exactly 30; a full window denies; an aged-out oldest instant
permits. -/
theorem claim_C2_witness :
    (runRateLimit (List.replicate 31 5) []).1 = min 31 30 ∧
    checkRateLimit 7 (List.replicate 30 5) = (false, List.replicate 30 5) ∧
    (checkRateLimit 60001 (1 :: List.replicate 29 2)).1 = true := by
  refine ⟨?_, ?_, ?_⟩
  · have h := claim_C2.1 5 (List.replicate 31 5) (by decide)
    simpa using h
  · have h := claim_C2.2.1 7 (List.replicate 30 5) (by decide) (by decide)
    simpa using h
  · have h := claim_C2.2.2 60001 1 (List.replicate 29 2) (by decide) (by decide) (by decide)
    simpa using h

/-- Claim C3: the throttled invoker. Part 1: an operation that fails with a
429 exactly twice and then succeeds, run with retry budget 3 (and the local
limiter granting), yields the success value after exactly 3 attempts (with
two backoff waits). Part 2: a local rate-limiter denial adds one backoff
wait and retries with the budget undecremented. Part 3: a non-429 failure
propagates unchanged with no retry. Part 4: a 429 failure with the budget
exhausted propagates unchanged. -/
theorem claim_C3 :
    (∀ (α : Type) (v : α) (msg : String),
      withRateLimit (fun k => if k < 2 then OpStep.err true msg else OpStep.ok v)
        [true, true, true] 0 3 = some ⟨.ok v, 3, 2⟩) ∧
    (∀ (α : Type) (op : Nat → OpStep α) (ps : List Bool) (k retries : Nat),
      withRateLimit op (false :: ps) k retries =
        (withRateLimit op ps k retries).map (fun r => { r with waits := r.waits + 1 })) ∧
    (∀ (α : Type) (op : Nat → OpStep α) (ps : List Bool) (k retries : Nat) (msg : String),
      op k = .err false msg →
      withRateLimit op (true :: ps) k retries = some ⟨.error (false, msg), k + 1, 0⟩) ∧
    (∀ (α : Type) (op : Nat → OpStep α) (ps : List Bool) (k : Nat) (b : Bool) (msg : String),
      op k = .err b msg →
      withRateLimit op (true :: ps) k 0 = some ⟨.error (b, msg), k + 1, 0⟩) := by
  refine ⟨?_, ?_, ?_, ?_⟩
  · intro α v msg; rfl
  · intro α op ps k retries; rfl
  · intro α op ps k retries msg h
    simp [withRateLimit, h]
  · intro α op ps k b msg h
    simp [withRateLimit, h]

/-- Witness for claim C3 at concrete inputs. -/
theorem claim_C3_witness :
    withRateLimit (fun k => if k < 2 then OpStep.err true "429" else OpStep.ok 7)
      [true, true, true] 0 3 = some ⟨.ok 7, 3, 2⟩ ∧
    withRateLimit ((fun _ => OpStep.err false "boom") : Nat → OpStep Nat) [true] 5 3 =
      some ⟨.error (false, "boom"), 6, 0⟩ ∧
    withRateLimit ((fun _ => OpStep.err true "429") : Nat → OpStep Nat) [true] 0 0 =
      some ⟨.error (true, "429"), 1, 0⟩ :=
  ⟨claim_C3.1 Nat 7 "429",
   claim_C3.2.2.1 Nat ((fun _ => OpStep.err false "boom") : Nat → OpStep Nat) [] 5 3 "boom" rfl,
   claim_C3.2.2.2 Nat ((fun _ => OpStep.err true "429") : Nat → OpStep Nat) [] 0 true "429" rfl⟩

/-- Claim C9: on a successful response whose payload has no `items` field,
`fetchAnswers` and `fetchComments` return the empty array (never
`undefined` or an error), so downstream iteration is always over a
(possibly empty) array. -/
theorem claim_C9 : ∀ (w : World) (qid pid : Nat),
    (w.answersItems qid = none → fetchAnswersResult w qid = []) ∧
    (w.commentsItems pid = none → fetchCommentsResult w pid = []) := by
  intro w qid pid
  constructor
  · intro h; simp [fetchAnswersResult, h]
  · intro h; simp [fetchCommentsResult, h]

/-- Witness for claim C9 at a concrete world. -/
theorem claim_C9_witness :
    fetchAnswersResult worldNoItems 1 = [] ∧ fetchCommentsResult worldNoItems 2 = [] :=
  ⟨(claim_C9 worldNoItems 1 2).1 rfl, (claim_C9 worldNoItems 1 2).2 rfl⟩

/-- Claim C10: a write tool invocation whose numeric id argument is `0`
(`postId` for thumbs_up, `questionId` for post_solution and
comment_solution) is rejected by the dispatcher with an InvalidParams
error before the handler runs (no API call is issued), because
required-argument validation tests JavaScript truthiness and `0` is
falsy. -/
theorem claim_C10 : ∀ (c : Creds) (w : World) (fixed : Bool) (body : String)
    (resolved : Bool) (ev : List String),
    dispatch c w (.thumbsUp ⟨0, fixed⟩) =
      (.error ⟨.invalidParams, "postId is required"⟩, []) ∧
    dispatch c w (.postSolution ⟨0, body, resolved, ev⟩) =
      (.error ⟨.invalidParams, "questionId and body are required"⟩, []) ∧
    dispatch c w (.commentSolution ⟨0, body⟩) =
      (.error ⟨.invalidParams, "questionId and body are required"⟩, []) := by
  intro c w fixed body resolved ev
  exact ⟨rfl, rfl, rfl⟩

/-! ## Write policy gate: post_solution (claim C6) -/

/-- Claim C6: `post_solution` is rejected — with no answer-post request ever
sent — whenever `confirmedResolved` is not true (regardless of evidence);
whenever the evidence list is empty; whenever the target question cannot be
fetched; and whenever the question has an accepted answer (a nonzero
`accepted_answer_id`) or a positive `answer_count`. Each conjunct gives the
exact error and the exact (post-free) API trace. -/
theorem claim_C6 : ∀ (c : Creds) (w : World) (i : PostSolutionInput),
    (i.confirmedResolved = false →
      handlePostSolution c w i =
        (.error ⟨.invalidRequest, "Refusing to post: confirmedResolved must be true"⟩, [])) ∧
    (i.confirmedResolved = true → i.evidence = [] →
      handlePostSolution c w i =
        (.error ⟨.invalidParams, "Refusing to post: evidence is required"⟩, [])) ∧
    (i.confirmedResolved = true → i.evidence ≠ [] →
      fetchQuestionResult w i.questionId = none →
      handlePostSolution c w i =
        (.error ⟨.invalidRequest, "Question not found"⟩, [.questionFetch i.questionId])) ∧
    (∀ q : Question, i.confirmedResolved = true → i.evidence ≠ [] →
      fetchQuestionResult w i.questionId = some q →
      ((∃ a, q.accepted_answer_id = some a ∧ a ≠ 0) ∨ 0 < q.answer_count) →
      handlePostSolution c w i =
        (.error ⟨.invalidRequest,
          "Refusing to post: the question already has answers (or an accepted one)"⟩,
         [.questionFetch i.questionId])) := by
  intro c w i
  refine ⟨?_, ?_, ?_, ?_⟩
  · intro h
    simp [handlePostSolution, h]
  · intro h1 h2
    simp [handlePostSolution, h1, h2]
  · intro h1 h2 hq
    have hev : i.evidence.isEmpty = false := by
      cases hcase : i.evidence with
      | nil => exact absurd hcase h2
      | cons a l => rfl
    simp [handlePostSolution, h1, hev, hq]
  · intro q h1 h2 hq hcond
    have hev : i.evidence.isEmpty = false := by
      cases hcase : i.evidence with
      | nil => exact absurd hcase h2
      | cons a l => rfl
    have hguard : (truthyOptNat q.accepted_answer_id || decide (0 < q.answer_count)) = true := by
      rcases hcond with ⟨a, ha, hne⟩ | hpos
      · simp [truthyOptNat, ha, hne]
      · simp [hpos]
    simp [handlePostSolution, h1, hev, hq, hguard]

/-- Witness for claim C6 at concrete inputs: each rejection branch
evaluated. -/
theorem claim_C6_witness :
    handlePostSolution ⟨none, none⟩ worldNoItems ⟨1, "b", false, ["e"]⟩ =
      (.error ⟨.invalidRequest, "Refusing to post: confirmedResolved must be true"⟩, []) ∧
    handlePostSolution ⟨none, none⟩ worldNoItems ⟨1, "b", true, []⟩ =
      (.error ⟨.invalidParams, "Refusing to post: evidence is required"⟩, []) ∧
    handlePostSolution ⟨none, none⟩ worldNoItems ⟨1, "b", true, ["e"]⟩ =
      (.error ⟨.invalidRequest, "Question not found"⟩, [.questionFetch 1]) ∧
    handlePostSolution ⟨none, none⟩ worldAnswered ⟨1, "b", true, ["e"]⟩ =
      (.error ⟨.invalidRequest,
        "Refusing to post: the question already has answers (or an accepted one)"⟩,
       [.questionFetch 1]) :=
  ⟨(claim_C6 ⟨none, none⟩ worldNoItems ⟨1, "b", false, ["e"]⟩).1 rfl,
   (claim_C6 ⟨none, none⟩ worldNoItems ⟨1, "b", true, []⟩).2.1 rfl rfl,
   (claim_C6 ⟨none, none⟩ worldNoItems ⟨1, "b", true, ["e"]⟩).2.2.1 rfl (by decide) rfl,
   (claim_C6 ⟨none, none⟩ worldAnswered ⟨1, "b", true, ["e"]⟩).2.2.2 questionAnswered
     rfl (by decide) rfl (Or.inl ⟨2, rfl, by decide⟩)⟩

/-! ## Claim C1: credential check versus network calls -/

/-- Per-question aggregation issues only read calls. -/
theorem processQuestion_calls_read (w : World) (ic : Bool) (q : Question) :
    ∀ call ∈ (processQuestion w ic q).2, call.isWrite = false := by
  intro call hcall
  cases ic with
  | false =>
    simp only [processQuestion, Bool.false_eq_true, if_false, List.mem_singleton] at hcall
    subst hcall; rfl
  | true =>
    simp only [processQuestion, if_true] at hcall
    rcases List.mem_cons.1 hcall with h | h
    · subst h; rfl
    · rcases List.mem_cons.1 h with h2 | h2
      · subst h2; rfl
      · rcases List.mem_map.1 h2 with ⟨a, _, rfl⟩
        rfl

/-- The aggregation loop issues only read calls. -/
theorem aggregate_calls_read (w : World) (opts : SearchOptions) :
    ∀ (qs : List Question), ∀ call ∈ (aggregate w opts qs).2, call.isWrite = false := by
  intro qs
  induction qs with
  | nil => intro call hcall; simp [aggregate] at hcall
  | cons q rest ih =>
    intro call hcall
    simp only [aggregate] at hcall
    by_cases hskip :
        (truthyOptInt opts.minScore && decide (q.score < opts.minScore.getD 0)) = true
    · rw [if_pos hskip] at hcall
      exact ih call hcall
    · rw [if_neg hskip] at hcall
      rcases List.mem_append.1 hcall with h | h
      · exact processQuestion_calls_read w opts.includeComments q call h
      · exact ih call h

/-- A whole `searchStackOverflow` run issues only read calls. -/
theorem searchStackOverflow_calls_read (w : World) (query : String)
    (tags : Option (List String)) (opts : SearchOptions) :
    ∀ call ∈ (searchStackOverflow w query tags opts).2, call.isWrite = false := by
  intro call hcall
  simp only [searchStackOverflow] at hcall
  rcases List.mem_cons.1 hcall with h | h
  · subst h; rfl
  · exact aggregate_calls_read w opts w.searchItems call h

/-- Counterexample to claim C1: with the access token absent, a valid
`post_question` call does fail with the configuration error, but only
AFTER the duplicate-check search request has been issued to the external
API — the trace contains a search call, contradicting "no search … is
issued". -/
theorem claim_C1_counterexample :
    credsWriteOk credsNoToken = false ∧
    dispatch credsNoToken worldEmptySearch (.postQuestion pqInput) =
      (.error configErr, [.search "sig" (some "tag") (some 3)]) :=
  ⟨rfl, rfl⟩

/-- Claim C1 (amended): if the API key or the OAuth access token is absent,
every write tool invocation fails — with the configuration error whenever
it reaches the credential check — and no write (POST) request is ever
issued to the external API; however, the precondition reads (the duplicate
search of `post_question`, the question fetch of `post_solution` and
`comment_solution`) may still be issued first. Only `thumbs_up` (with
`confirmedFixed` true and a nonzero id) fails with the configuration error
before any network call. -/
theorem claim_C1_amended : ∀ (c : Creds) (w : World), credsWriteOk c = false →
    (∀ tc : ToolCall,
      isErrorResult (dispatch c w tc).1 = true ∧
      ∀ call ∈ (dispatch c w tc).2, call.isWrite = false) ∧
    (∀ pid : Nat, pid ≠ 0 →
      dispatch c w (.thumbsUp ⟨pid, true⟩) = (.error configErr, [])) := by
  intro c w hc
  have hEWA : ensureWriteAccess c = .error configErr := by
    cases hk : truthyStr c.apiKey <;> cases ht : truthyStr c.accessToken <;>
      simp_all [credsWriteOk, ensureWriteAccess]
  constructor
  · intro tc
    cases tc with
    | postQuestion i =>
      simp only [dispatch, handlePostQuestion, hEWA]
      split
      · simp [isErrorResult]
      · split
        · simp [isErrorResult]
        · split
          · exact ⟨rfl, fun call hcall =>
              searchStackOverflow_calls_read w i.errorSignature (some i.tags)
                ⟨some 0, some 3, false⟩ call hcall⟩
          · exact ⟨rfl, fun call hcall =>
              searchStackOverflow_calls_read w i.errorSignature (some i.tags)
                ⟨some 0, some 3, false⟩ call hcall⟩
    | postSolution i =>
      simp only [dispatch, handlePostSolution, hEWA]
      split
      · simp [isErrorResult]
      · split
        · simp [isErrorResult]
        · split
          · simp [isErrorResult]
          · split
            · simp [isErrorResult, ApiCall.isWrite]
            · split
              · simp [isErrorResult, ApiCall.isWrite]
              · simp [isErrorResult, ApiCall.isWrite]
    | thumbsUp i =>
      simp only [dispatch, handleThumbsUp, hEWA]
      split
      · simp [isErrorResult]
      · split
        · simp [isErrorResult]
        · simp [isErrorResult]
    | commentSolution i =>
      simp only [dispatch, handleCommentSolution, hEWA]
      split
      · simp [isErrorResult]
      · split
        · simp [isErrorResult, ApiCall.isWrite]
        · split
          · simp [isErrorResult, ApiCall.isWrite]
          · simp [isErrorResult, ApiCall.isWrite]
  · intro pid hpid
    have hbeq : (pid == 0) = false := by simpa using hpid
    simp [dispatch, handleThumbsUp, hbeq, hEWA]

/-- Witness for the amended claim C1 at concrete inputs. -/
theorem claim_C1_witness :
    (isErrorResult (dispatch ⟨none, none⟩ worldEmptySearch
        (.postQuestion pqInput)).1 = true ∧
      ∀ call ∈ (dispatch ⟨none, none⟩ worldEmptySearch (.postQuestion pqInput)).2,
        call.isWrite = false) ∧
    dispatch ⟨none, none⟩ worldEmptySearch (.thumbsUp ⟨5, true⟩) =
      (.error configErr, []) := by
  have h := claim_C1_amended ⟨none, none⟩ worldEmptySearch rfl
  exact ⟨h.1 (.postQuestion pqInput), h.2 5 (by decide)⟩

/-! ## Claim C5: the post_question gate -/

/-- Counterexample to claim C5: the dispatcher counts the tried approaches
with multiplicity, not distinctly. Three copies of the same approach (one
distinct string, fewer than 3) pass validation; with no duplicates found
the question is posted — the call is not rejected and a post request is
sent. -/
theorem claim_C5_counterexample :
    (["a", "a", "a"] : List String).dedup.length < 3 ∧
    dispatch credsOk worldEmptySearch (.postQuestion pqDupApproaches) =
      (.ok (), [.search "sig" (some "tag") (some 3), .questionAdd "Title" "Body" "tag"]) := by
  constructor
  · decide
  · rfl

/-- Claim C5 (amended): `post_question` with fewer than 3 tried-approach
strings (counted with multiplicity, not distinctness) is rejected before
any network call; with at least 3 approaches (and nonempty string
arguments), the duplicate search on the error signature and tags (limit 3,
no comments, `minScore: 0` which disables the score filter) runs first,
and if it returns any result the call is rejected with the
duplicate-reason error and no post request is ever sent. -/
theorem claim_C5_amended : ∀ (c : Creds) (w : World) (i : PostQuestionInput),
    (i.triedApproaches.length < 3 →
      isErrorResult (dispatch c w (.postQuestion i)).1 = true ∧
      (dispatch c w (.postQuestion i)).2 = []) ∧
    (3 ≤ i.triedApproaches.length →
      i.title.isEmpty = false → i.body.isEmpty = false → i.errorSignature.isEmpty = false →
      (searchStackOverflow w i.errorSignature (some i.tags) ⟨some 0, some 3, false⟩).1 ≠ [] →
      dispatch c w (.postQuestion i) =
        (.error ⟨.invalidRequest,
          "Refusing to post: similar questions already exist for the provided errorSignature"⟩,
         (searchStackOverflow w i.errorSignature (some i.tags) ⟨some 0, some 3, false⟩).2) ∧
      ∀ call ∈ (dispatch c w (.postQuestion i)).2, call.isWrite = false) := by
  intro c w i
  constructor
  · intro hlen
    by_cases hcond : (i.title.isEmpty || i.body.isEmpty || i.errorSignature.isEmpty) = true
    · simp only [dispatch]
      rw [if_pos hcond]
      exact ⟨rfl, rfl⟩
    · simp only [dispatch]
      rw [if_neg hcond, if_pos hlen]
      exact ⟨rfl, rfl⟩
  · intro hlen ht hb hs hne
    have hcond : (i.title.isEmpty || i.body.isEmpty || i.errorSignature.isEmpty) = false := by
      simp [ht, hb, hs]
    have hpos : 0 < (searchStackOverflow w i.errorSignature (some i.tags)
        ⟨some 0, some 3, false⟩).1.length := List.length_pos.2 hne
    have hmain : dispatch c w (.postQuestion i) =
        (.error ⟨.invalidRequest,
          "Refusing to post: similar questions already exist for the provided errorSignature"⟩,
         (searchStackOverflow w i.errorSignature (some i.tags) ⟨some 0, some 3, false⟩).2) := by
      simp only [dispatch, hcond, Bool.false_eq_true, if_false]
      rw [if_neg (by omega)]
      simp only [handlePostQuestion]
      rw [if_pos hpos]
    refine ⟨hmain, ?_⟩
    rw [hmain]
    intro call hcall
    exact searchStackOverflow_calls_read w i.errorSignature (some i.tags)
      ⟨some 0, some 3, false⟩ call hcall

/-- Witness for the amended claim C5 at concrete inputs. -/
theorem claim_C5_witness :
    (isErrorResult (dispatch credsOk worldEmptySearch
        (.postQuestion ⟨"T", "B", ["t"], "s", ["a", "b"]⟩)).1 = true ∧
      (dispatch credsOk worldEmptySearch
        (.postQuestion ⟨"T", "B", ["t"], "s", ["a", "b"]⟩)).2 = []) ∧
    dispatch credsOk worldOneResult (.postQuestion pqInput) =
      (.error ⟨.invalidRequest,
        "Refusing to post: similar questions already exist for the provided errorSignature"⟩,
       (searchStackOverflow worldOneResult "sig" (some ["tag"]) ⟨some 0, some 3, false⟩).2) := by
  constructor
  · exact (claim_C5_amended credsOk worldEmptySearch
      ⟨"T", "B", ["t"], "s", ["a", "b"]⟩).1 (by decide)
  · exact ((claim_C5_amended credsOk worldOneResult pqInput).2 (by decide) rfl rfl rfl
      (by decide)).1

/-! ## Claim C8: the client-side score filter -/

/-- Composed results carry exactly the question they were built from. -/
theorem processQuestion_question (w : World) (ic : Bool) (q : Question) :
    (processQuestion w ic q).1.question = q := by
  cases ic <;> rfl

/-- The aggregation loop keeps, in search order, exactly the questions that
survive the (truthiness-guarded) score filter. -/
theorem aggregate_map_question (w : World) (opts : SearchOptions) :
    ∀ qs : List Question,
      (aggregate w opts qs).1.map (fun r => r.question) =
        qs.filter (fun q =>
          !(truthyOptInt opts.minScore && decide (q.score < opts.minScore.getD 0))) := by
  intro qs
  induction qs with
  | nil => simp [aggregate]
  | cons q rest ih =>
    by_cases hskip :
        (truthyOptInt opts.minScore && decide (q.score < opts.minScore.getD 0)) = true
    · have h1 : aggregate w opts (q :: rest) = aggregate w opts rest := by
        simp only [aggregate]
        rw [if_pos hskip]
      rw [h1, ih, List.filter_cons, if_neg (by simp [hskip])]
    · have h1 : (aggregate w opts (q :: rest)).1 =
          (processQuestion w opts.includeComments q).1 :: (aggregate w opts rest).1 := by
        simp only [aggregate]
        rw [if_neg hskip]
      rw [h1, List.map_cons, ih, processQuestion_question,
        List.filter_cons, if_pos (by simp [hskip])]

/-- Counterexample to claim C8: with `min_score` set to `0` (a falsy
JavaScript number) the filter is disabled, so a question whose score `-1`
is strictly below `min_score` is nevertheless kept in the results. -/
theorem claim_C8_counterexample :
    questionNegScore.score < 0 ∧
    (searchStackOverflow worldNegScore "q" none ⟨some 0, none, false⟩).1.map
      (fun r => r.question) = [questionNegScore] := by
  constructor
  · decide
  · rfl

/-- Claim C8 (amended): when `min_score` is set to a nonzero value, every
question returned by search with score below `min_score` is skipped, every
question with score at least `min_score` is kept, and the composed results
preserve the search order (the kept questions are exactly the
order-preserving filter of the search items). -/
theorem claim_C8_amended : ∀ (w : World) (query : String) (tags : Option (List String))
    (m : Int) (lim : Option Nat) (ic : Bool), m ≠ 0 →
    (searchStackOverflow w query tags ⟨some m, lim, ic⟩).1.map (fun r => r.question) =
      w.searchItems.filter (fun q => decide (m ≤ q.score)) := by
  intro w query tags m lim ic hm
  have h := aggregate_map_question w ⟨some m, lim, ic⟩ w.searchItems
  have hs : (searchStackOverflow w query tags ⟨some m, lim, ic⟩).1 =
      (aggregate w ⟨some m, lim, ic⟩ w.searchItems).1 := rfl
  rw [hs, h]
  apply List.filter_congr
  intro q _
  have hbne : (m != 0) = true := by simpa using hm
  by_cases hlt : q.score < m
  · simp [truthyOptInt, hbne, hlt, show ¬ (m ≤ q.score) by omega]
  · simp [truthyOptInt, hbne, hlt, show m ≤ q.score by omega]

/-- Witness for the amended claim C8 at concrete inputs. -/
theorem claim_C8_witness :
    (searchStackOverflow worldOneResult "q" none ⟨some 5, none, false⟩).1.map
      (fun r => r.question) =
      worldOneResult.searchItems.filter (fun q => decide ((5 : Int) ≤ q.score)) :=
  claim_C8_amended worldOneResult "q" none 5 none false (by decide)

/-! ## Claim C4: aggregator call counts with comments -/

/-- Assigning a fresh key on a JavaScript object appends the entry. -/
theorem mapInsert_fresh (m : List (Nat × List Comment)) (key : Nat) (value : List Comment)
    (h : ∀ p ∈ m, p.1 ≠ key) : mapInsert m key value = m ++ [(key, value)] := by
  have hany : m.any (fun p => p.1 == key) = false := by
    rw [List.any_eq_false]
    intro p hp
    simpa using h p hp
  simp [mapInsert, hany]

/-- Building the answers-comments map over answers with pairwise distinct
ids, starting from a map containing none of them, adds one entry per
answer. -/
theorem buildMap_length (f : Nat → List Comment) :
    ∀ (answers : List Answer) (m : List (Nat × List Comment)),
      (answers.map (fun a => a.answer_id)).Nodup →
      (∀ a ∈ answers, ∀ p ∈ m, p.1 ≠ a.answer_id) →
      (answers.foldl (fun acc a => mapInsert acc a.answer_id (f a.answer_id)) m).length
        = m.length + answers.length := by
  intro answers
  induction answers with
  | nil => intro m _ _; simp
  | cons a rest ih =>
    intro m hnd hfresh
    have hnd2 : (a.answer_id :: rest.map (fun x => x.answer_id)).Nodup := by
      simpa using hnd
    have hnotin : a.answer_id ∉ rest.map (fun x => x.answer_id) :=
      (List.nodup_cons.1 hnd2).1
    have hm : mapInsert m a.answer_id (f a.answer_id) =
        m ++ [(a.answer_id, f a.answer_id)] :=
      mapInsert_fresh m a.answer_id (f a.answer_id)
        (fun p hp => hfresh a (by simp) p hp)
    rw [List.foldl_cons, hm]
    have hfresh2 : ∀ x ∈ rest, ∀ p ∈ m ++ [(a.answer_id, f a.answer_id)],
        p.1 ≠ x.answer_id := by
      intro x hx p hp
      rcases List.mem_append.1 hp with h | h
      · exact hfresh x (List.mem_cons_of_mem _ hx) p h
      · simp only [List.mem_singleton] at h
        subst h
        intro hcontra
        apply hnotin
        have hax : a.answer_id = x.answer_id := hcontra
        rw [hax]
        exact List.mem_map_of_mem (fun y => y.answer_id) hx
    rw [ih (m ++ [(a.answer_id, f a.answer_id)]) (List.nodup_cons.1 hnd2).2 hfresh2]
    simp
    omega

/-- With comments requested, processing one question issues the answers
fetch, the question-comments fetch and one comments fetch per answer, and
its comments bundle has one entry per answer (for distinct answer ids). -/
theorem processQuestion_comments_count (w : World) (q : Question)
    (hnd : ((fetchAnswersResult w q.question_id).map (fun a => a.answer_id)).Nodup) :
    (processQuestion w true q).2.length = 2 + (fetchAnswersResult w q.question_id).length ∧
    (processQuestion w true q).1.answers = fetchAnswersResult w q.question_id ∧
    ∃ b, (processQuestion w true q).1.comments = some b ∧
      b.answers.length = (fetchAnswersResult w q.question_id).length := by
  refine ⟨?_, rfl, ?_⟩
  · simp [processQuestion]
    omega
  · have hc : (processQuestion w true q).1.comments =
        some ⟨fetchCommentsResult w q.question_id,
          (fetchAnswersResult w q.question_id).foldl
            (fun m a => mapInsert m a.answer_id (fetchCommentsResult w a.answer_id)) []⟩ := rfl
    refine ⟨_, hc, ?_⟩
    have hb := buildMap_length (fun n => fetchCommentsResult w n)
      (fetchAnswersResult w q.question_id) [] hnd (by simp)
    simpa using hb

/-- Call counts of the aggregation loop with `includeComments = true`, when
every question passes the score filter: one answers fetch and one
question-comments fetch per question plus one comments fetch per answer,
one result per question, and each result's comments bundle has one entry
per answer. -/
theorem aggregate_comments_count (w : World) (ms : Option Int) (lim : Option Nat) :
    ∀ qs : List Question,
      (∀ q ∈ qs, (truthyOptInt ms && decide (q.score < ms.getD 0)) = false) →
      (∀ q ∈ qs, ((fetchAnswersResult w q.question_id).map (fun a => a.answer_id)).Nodup) →
      (aggregate w ⟨ms, lim, true⟩ qs).1.length = qs.length ∧
      (aggregate w ⟨ms, lim, true⟩ qs).2.length =
        (qs.map (fun q => 2 + (fetchAnswersResult w q.question_id).length)).sum ∧
      ∀ r ∈ (aggregate w ⟨ms, lim, true⟩ qs).1,
        ∃ b, r.comments = some b ∧ b.answers.length = r.answers.length := by
  intro qs
  induction qs with
  | nil => intro _ _; refine ⟨rfl, rfl, ?_⟩; intro r hr; simp [aggregate] at hr
  | cons q rest ih =>
    intro hkeep hnd
    have hq : (truthyOptInt ms && decide (q.score < ms.getD 0)) = false :=
      hkeep q (by simp)
    have hrest := ih (fun x hx => hkeep x (List.mem_cons_of_mem _ hx))
      (fun x hx => hnd x (List.mem_cons_of_mem _ hx))
    have hpq := processQuestion_comments_count w q (hnd q (by simp))
    have h1 : (aggregate w ⟨ms, lim, true⟩ (q :: rest)).1 =
        (processQuestion w true q).1 :: (aggregate w ⟨ms, lim, true⟩ rest).1 := by
      simp only [aggregate]
      rw [if_neg (by simp [hq])]
    have h2 : (aggregate w ⟨ms, lim, true⟩ (q :: rest)).2 =
        (processQuestion w true q).2 ++ (aggregate w ⟨ms, lim, true⟩ rest).2 := by
      simp only [aggregate]
      rw [if_neg (by simp [hq])]
    refine ⟨?_, ?_, ?_⟩
    · rw [h1]
      simp [hrest.1]
    · rw [h2]
      simp only [List.length_append, hpq.1, hrest.2.1, List.map_cons, List.sum_cons]
    · intro r hr
      rw [h1] at hr
      rcases List.mem_cons.1 hr with h | h
      · subst h
        rcases hpq.2.2 with ⟨b, hb, hblen⟩
        exact ⟨b, hb, by rw [hblen, hpq.2.1]⟩
      · exact hrest.2.2 r h

/-- Summing `2 + f q` over a list splits into twice the length plus the sum
of `f`. -/
theorem sum_map_two_add (f : Question → Nat) :
    ∀ qs : List Question,
      (qs.map (fun q => 2 + f q)).sum = 2 * qs.length + (qs.map f).sum := by
  intro qs
  induction qs with
  | nil => simp
  | cons q rest ih => simp [ih]; omega

/-- Claim C4 (amended): a search with `include_comments = true` over N
questions that all pass the score filter, with `A i` answers each (distinct
answer ids), issues exactly `1 (search) + N (answer fetches) + N (question
comments) + Σ A i (answer comments)` API calls — the answers of one
question arrive in a single fetch, not one per answer — and each composed
result's comments mapping has exactly one entry per answer. -/
theorem claim_C4_amended : ∀ (w : World) (query : String) (tags : Option (List String))
    (ms : Option Int) (lim : Option Nat),
    (∀ q ∈ w.searchItems, (truthyOptInt ms && decide (q.score < ms.getD 0)) = false) →
    (∀ q ∈ w.searchItems,
      ((fetchAnswersResult w q.question_id).map (fun a => a.answer_id)).Nodup) →
    (searchStackOverflow w query tags ⟨ms, lim, true⟩).2.length =
      1 + 2 * w.searchItems.length +
        (w.searchItems.map (fun q => (fetchAnswersResult w q.question_id).length)).sum ∧
    (searchStackOverflow w query tags ⟨ms, lim, true⟩).1.length = w.searchItems.length ∧
    ∀ r ∈ (searchStackOverflow w query tags ⟨ms, lim, true⟩).1,
      ∃ b, r.comments = some b ∧ b.answers.length = r.answers.length := by
  intro w query tags ms lim hkeep hnd
  have hagg := aggregate_comments_count w ms lim w.searchItems hkeep hnd
  have h1 : (searchStackOverflow w query tags ⟨ms, lim, true⟩).1 =
      (aggregate w ⟨ms, lim, true⟩ w.searchItems).1 := rfl
  have h2 : (searchStackOverflow w query tags ⟨ms, lim, true⟩).2.length =
      1 + (aggregate w ⟨ms, lim, true⟩ w.searchItems).2.length := by
    simp [searchStackOverflow, Nat.add_comm]
  refine ⟨?_, ?_, ?_⟩
  · rw [h2, hagg.2.1, sum_map_two_add]
    omega
  · rw [h1, hagg.1]
  · rw [h1]
    exact hagg.2.2

/-- Counterexample to claim C4: one question with two answers and
`include_comments = true` issues 5 API calls (1 search + 1 answers fetch +
1 question comments + 2 answer comments), not the claimed
`1 + ΣA + N + ΣA = 6` — answers are fetched once per question, not once
per answer. -/
theorem claim_C4_counterexample :
    (searchStackOverflow worldTwoAnswers "q" none ⟨none, none, true⟩).2 =
      [.search "q" none none, .answersFetch 1, .commentsFetch 1,
       .commentsFetch 10, .commentsFetch 11] ∧
    (searchStackOverflow worldTwoAnswers "q" none ⟨none, none, true⟩).2.length ≠
      1 + 2 + 1 + 2 := by
  constructor
  · rfl
  · decide

/-! ## Claim C7: structured-format round trip -/

/-- Decoding the digit character of a decimal digit recovers the digit. -/
theorem charDigit_ofNat (d : Nat) (hd : d < 10) :
    charDigit (Char.ofNat (48 + d)) = some d := by
  interval_cases d <;> decide

/-- The decimal parser processes an appended suffix from the accumulated
value of the prefix. -/
theorem keyNatAux_append : ∀ (xs ys : List Char) (acc : Nat),
    keyNatAux acc (xs ++ ys) = (keyNatAux acc xs).bind (fun a => keyNatAux a ys) := by
  intro xs
  induction xs with
  | nil => intro ys acc; rfl
  | cons ch rest ih =>
    intro ys acc
    cases hc : charDigit ch with
    | none => simp [keyNatAux, hc]
    | some d => simp [keyNatAux, hc, ih]

/-- Parsing the rendered digits of a digit list (least significant first)
onto accumulator `acc` yields `acc` shifted past the digits plus their
value. -/
theorem keyNatAux_digits : ∀ ds : List Nat, (∀ d ∈ ds, d < 10) → ∀ acc : Nat,
    keyNatAux acc ((ds.map (fun d => Char.ofNat (48 + d))).reverse) =
      some (acc * 10 ^ ds.length + Nat.ofDigits 10 ds) := by
  intro ds
  induction ds with
  | nil => intro _ acc; simp [keyNatAux, Nat.ofDigits_nil]
  | cons d rest ih =>
    intro hds acc
    have hd : d < 10 := hds d (by simp)
    have hrest : ∀ x ∈ rest, x < 10 := fun x hx => hds x (List.mem_cons_of_mem _ hx)
    rw [List.map_cons, List.reverse_cons, keyNatAux_append, ih hrest acc]
    show keyNatAux (acc * 10 ^ rest.length + Nat.ofDigits 10 rest)
        [Char.ofNat (48 + d)] = _
    simp only [keyNatAux, charDigit_ofNat d hd]
    rw [Nat.ofDigits_cons]
    congr 1
    simp only [List.length_cons, pow_succ]
    ring

/-- Parsing the decimal key rendered for `n` recovers `n`. -/
theorem keyNat_natKey (n : Nat) : keyNat (natKey n) = some n := by
  by_cases h0 : n = 0
  · subst h0; rfl
  · have hne : Nat.digits 10 n ≠ [] := Nat.digits_ne_nil_iff_ne_zero.2 h0
    have hlt : ∀ d ∈ Nat.digits 10 n, d < 10 :=
      fun d hd => Nat.digits_lt_base (by norm_num) hd
    have hmain := keyNatAux_digits (Nat.digits 10 n) hlt 0
    have hk : natKey n =
        ⟨((Nat.digits 10 n).map (fun d => Char.ofNat (48 + d))).reverse⟩ := by
      simp [natKey, h0]
    obtain ⟨c, cs, hcs⟩ : ∃ c cs,
        ((Nat.digits 10 n).map (fun d => Char.ofNat (48 + d))).reverse = c :: cs := by
      cases hrev : ((Nat.digits 10 n).map (fun d => Char.ofNat (48 + d))).reverse with
      | nil =>
        exfalso
        apply hne
        have := congrArg List.reverse hrev
        simp at this
        exact this
      | cons c cs => exact ⟨c, cs, rfl⟩
    rw [hk, hcs]
    have hstep : keyNat ⟨c :: cs⟩ = keyNatAux 0 (c :: cs) := rfl
    rw [hstep, ← hcs, hmain]
    simp [Nat.ofDigits_digits]

/-- Decoding an encoded comment recovers it. -/
theorem decodeComment_encode (c : Comment) : decodeComment (encodeComment c) = some c := rfl

/-- Decoding an encoded answer recovers it. -/
theorem decodeAnswer_encode (a : Answer) : decodeAnswer (encodeAnswer a) = some a := rfl

/-- Decoding an encoded array elementwise recovers the list. -/
theorem decodeList_encode {β : Type} (f : Json → Option β) (enc : β → Json)
    (h : ∀ b, f (enc b) = some b) : ∀ l : List β, decodeList f (l.map enc) = some l := by
  intro l
  induction l with
  | nil => rfl
  | cons b rest ih => simp [decodeList, h, ih]

/-- Decoding an encoded question recovers it (both with and without an
accepted answer id). -/
theorem decodeQuestion_encode (q : Question) :
    decodeQuestion (encodeQuestion q) = some q := by
  obtain ⟨qid, t, b, s, ac, ia, acc, cd, tags, l⟩ := q
  cases acc with
  | none =>
    simp only [encodeQuestion, List.cons_append, List.nil_append]
    simp only [decodeQuestion]
    rw [decodeList_encode decodeStr Json.str (fun x => rfl)]
    rfl
  | some aid =>
    simp only [encodeQuestion, List.cons_append, List.nil_append]
    simp only [decodeQuestion]
    rw [decodeList_encode decodeStr Json.str (fun x => rfl)]
    rfl

/-- Decoding an encoded answers-map entry recovers it. -/
theorem decodeAnswersEntry_encode (p : Nat × List Comment) :
    decodeAnswersEntry (natKey p.1, .arr (p.2.map encodeComment)) = some p := by
  simp only [decodeAnswersEntry, keyNat_natKey,
    decodeList_encode decodeComment encodeComment decodeComment_encode]
  rfl

/-- Decoding the encoded answers-map entries recovers the map. -/
theorem decodeEntries_encode : ∀ m : List (Nat × List Comment),
    decodeEntries (m.map (fun p => (natKey p.1, Json.arr (p.2.map encodeComment)))) =
      some m := by
  intro m
  induction m with
  | nil => rfl
  | cons p rest ih => simp [decodeEntries, decodeAnswersEntry_encode, ih]

/-- Decoding an encoded comments bundle recovers it. -/
theorem decodeResultComments_encode (bundle : ResultComments) :
    decodeResultComments (encodeResultComments bundle) = some bundle := by
  obtain ⟨qcs, amap⟩ := bundle
  simp only [encodeResultComments, decodeResultComments,
    decodeList_encode decodeComment encodeComment decodeComment_encode,
    decodeEntries_encode]
  rfl

/-- Decoding an encoded composite result recovers it. -/
theorem decodeResult_encode (r : SearchResult) :
    decodeResult (encodeResult r) = some r := by
  obtain ⟨q, answers, comments⟩ := r
  cases comments with
  | none =>
    simp only [encodeResult, List.cons_append, List.nil_append]
    simp only [decodeResult, decodeQuestion_encode,
      decodeList_encode decodeAnswer encodeAnswer decodeAnswer_encode]
  | some bundle =>
    simp only [encodeResult, List.cons_append, List.nil_append]
    simp only [decodeResult, decodeQuestion_encode,
      decodeList_encode decodeAnswer encodeAnswer decodeAnswer_encode,
      decodeResultComments_encode]
    rfl

/-- Claim C7: the structured (json) formatter is lossless — parsing the
serialized value yields a result deep-equal to the input for every
composite-result list; the empty list serializes to the empty-sequence
representation; and the markdown formatter renders the empty list as the
empty string (not a placeholder). -/
theorem claim_C7 :
    (∀ results : List SearchResult,
      decodeResults (encodeResults results) = some results) ∧
    encodeResults [] = Json.arr [] ∧
    formatResponseMarkdown [] = "" := by
  refine ⟨?_, rfl, rfl⟩
  intro results
  simp only [encodeResults, decodeResults,
    decodeList_encode decodeResult encodeResult decodeResult_encode]

/-- Witness for the amended claim C4 at concrete inputs. -/
theorem claim_C4_witness :
    (searchStackOverflow worldTwoAnswers "q" none ⟨none, none, true⟩).2.length =
      1 + 2 * worldTwoAnswers.searchItems.length +
        (worldTwoAnswers.searchItems.map
          (fun q => (fetchAnswersResult worldTwoAnswers q.question_id).length)).sum ∧
    (searchStackOverflow worldTwoAnswers "q" none ⟨none, none, true⟩).1.length =
      worldTwoAnswers.searchItems.length :=
  ⟨(claim_C4_amended worldTwoAnswers "q" none none none (by decide) (by decide)).1,
   (claim_C4_amended worldTwoAnswers "q" none none none (by decide) (by decide)).2.1⟩

end SOMcp
